import Mathlib

/-
Shallow embedding of the annotation-extraction core of the repository
(file src/AnnotationsReader/ExtendedAnnotationsReader.ts) together with
proofs about it.

Modelling decisions, in order of appearance:

* JavaScript values that can appear in an annotation record are modelled by
  the inductive type Value (strings, numbers, NaN, booleans, null, arrays,
  objects).  Numbers are Int: every number the embedded code itself builds
  comes from the external Number conversion, which is a parameter, so no
  floating point semantics are needed inside the core.
* A JavaScript object literal / spread is modelled by an association list
  together with the function spread, which reproduces the observable
  key/value behaviour of a two-object spread: keys of the left operand in
  order with values overridden by the right operand, followed by the keys
  only the right operand has.
* ts.Node and ts.Symbol are modelled mutually: a node carries the result of
  symbolAtNode, its getText source text and its forEachChild children; a
  symbol carries the result of getDocumentationComment, getJsDocTags,
  getFlags and getDeclarations.  The type checker argument of
  getDocumentationComment is absorbed into the field.
* External capabilities (the json5.parse relaxed JSON parser, the JavaScript
  Number conversion, and the base class BasicAnnotationsReader method
  super.getAnnotations, none of which are source files of this repository)
  are fields of the reader structure: json5.parse is a function to
  Option Value, returning none exactly when the real parser would throw.
-/

namespace TJS

/-- Model of a JavaScript JSON-like value as stored in an annotation
record. -/
inductive Value where
  | str (s : String)
  | num (n : Int)
  | nan
  | bool (b : Bool)
  | null
  | arr (elems : List Value)
  | obj (flds : List (String × Value))

/-- Model of ts.SymbolDisplayPart: only the text projection is ever used by
the source. -/
structure SymbolDisplayPart where
  text : String
deriving DecidableEq

/-- Model of ts.JSDocTagInfo: a tag name and an optional body, mirroring
the optional text field of the TypeScript interface. -/
structure JSDocTagInfo where
  name : String
  text : Option (List SymbolDisplayPart)
deriving DecidableEq

mutual
/-- Model of ts.Node: the resolved symbol (result of symbolAtNode), the
getText source text, and the forEachChild children in order. -/
inductive Node where
  | mk : Option Symbol → String → List Node → Node
/-- Model of ts.Symbol: the results of getDocumentationComment,
getJsDocTags, getFlags and getDeclarations. -/
inductive Symbol where
  | mk : List SymbolDisplayPart → List JSDocTagInfo → Nat → List Node → Symbol
end

/-- Model of the symbolAtNode utility (src/Utils/symbolAtNode.ts, an
external collaborator of the core): returns the symbol a node resolves to,
if any. -/
def symbolAtNode : Node → Option Symbol
  | .mk s _ _ => s

/-- Result of node.getText() on the model. -/
def Node.getText : Node → String
  | .mk _ t _ => t

/-- Children visited by node.forEachChild, in visit order. -/
def Node.children : Node → List Node
  | .mk _ _ c => c

/-- Result of symbol.getDocumentationComment(checker) on the model. -/
def Symbol.getDocumentationComment : Symbol → List SymbolDisplayPart
  | .mk d _ _ _ => d

/-- Result of symbol.getJsDocTags() on the model. -/
def Symbol.getJsDocTags : Symbol → List JSDocTagInfo
  | .mk _ t _ _ => t

/-- Result of symbol.getFlags() on the model. -/
def Symbol.getFlags : Symbol → Nat
  | .mk _ _ f _ => f

/-- Result of symbol.getDeclarations() on the model; an absent or empty
declaration list both make the optional chain of the source skip the enum
member walk, so a plain list is enough. -/
def Symbol.getDeclarations : Symbol → List Node
  | .mk _ _ _ d => d

namespace SymbolFlags

/-- Numeric value of ts.SymbolFlags.ConstEnum. -/
def ConstEnum : Nat := 128

end SymbolFlags

/-- An annotation record: a JavaScript object as an association list from
field name to value, in key insertion order. -/
abbrev Annotations := List (String × Value)

/-- First-match association list lookup, the observable behaviour of
reading a property of a JavaScript object modelled by the list. -/
def alookup : Annotations → String → Option Value
  | [], _ => none
  | kv :: rest, k => if kv.1 = k then some kv.2 else alookup rest k

/-- JavaScript two-object spread on the association list model: the keys of
the left operand keep their position but take the right operand value on
collision, and the keys found only in the right operand follow in their own
order. -/
def spread (a b : Annotations) : Annotations :=
  a.map (fun kv => (kv.1, (alookup b kv.1).getD kv.2)) ++
    b.filter (fun kv => (alookup a kv.1).isNone)

/-- Fields contributed by an optional record: spreading undefined in
JavaScript contributes nothing. -/
def fields (o : Option Annotations) : Annotations := o.getD []

/-- Left-biased choice on optional values, used to state lookup facts about
spread. -/
def ovr : Option Value → Option Value → Option Value
  | some v, _ => some v
  | none, b => b

/-- Lookup of a field in an optional annotation record. -/
def lookupAnn (o : Option Annotations) (k : String) : Option Value :=
  alookup (fields o) k

/-- JavaScript parts.map(part => part.text).join(sep). -/
def joinParts (parts : List SymbolDisplayPart) (sep : String) : String :=
  String.intercalate sep (parts.map (fun part => part.text))

/-- JavaScript s.replace(slash r global, empty string): remove every
carriage return. -/
def stripCarriageReturns (s : String) : String :=
  String.mk (s.toList.filter (fun c => c ≠ '\r'))

/-- JavaScript String.prototype.trim restricted to the whitespace
characters that can actually occur here (space, tab, newline, carriage
return). -/
def jsTrim (s : String) : String :=
  String.mk (((s.toList.dropWhile Char.isWhitespace).reverse.dropWhile
    Char.isWhitespace).reverse)

/-- One character of the newline-collapsing replacement: the source applies
the global regex replace of a newline that has a lookbehind of one
non-newline character and a lookahead of one character that is neither a
newline, an asterisk nor a hyphen, replacing the matched newline by a
space.  Matches are single characters and lookarounds inspect the original
string, so the replacement is pointwise in the neighbours. -/
def collapseAux : Option Char → List Char → List Char
  | _, [] => []
  | prev, c :: rest =>
    (if c == '\n'
        && (match prev with | some p => p != '\n' | none => false)
        && (match rest.head? with
            | some n => n != '\n' && n != '*' && n != '-'
            | none => false)
     then ' ' else c) :: collapseAux (some c) rest

/-- JavaScript s.replace of the lookaround newline regex by a space, as
used for the plain-display description. -/
def collapseNewlines (s : String) : String :=
  String.mk (collapseAux none s.toList)

/-- JavaScript String.prototype.split specialised to the literal separator
of an equals sign followed by a space, the only separator the source ever
splits on: non-overlapping occurrences are removed left to right and the
segments between them are returned; the result is never empty. -/
def splitEqSpace : List Char → List (List Char)
  | [] => [[]]
  | '=' :: ' ' :: rest => [] :: splitEqSpace rest
  | c :: rest =>
    match splitEqSpace rest with
    | [] => [[c]]
    | seg :: segs => (c :: seg) :: segs

/-- JavaScript s.split of the equals-space separator followed by .at(-1):
the split result is never empty, so the last segment always exists and the
default is never used. -/
def splitLastOnEqSpace (s : String) : String :=
  String.mk ((splitEqSpace s.toList).getLastD [])

/-- Model of the ExtendedAnnotationsReader instance: its
markdownDescription constructor flag together with the three external
capabilities it closes over.  The extraTags constructor argument is only
forwarded to the base reader, which is itself the opaque capability
superGetAnnotations here, so it does not appear separately.  json5parse
models json5.parse and returns none exactly when the real parser throws;
jsNumber models the JavaScript Number conversion. -/
structure ExtendedAnnotationsReader where
  markdownDescription : Bool
  superGetAnnotations : Node → Option Annotations
  json5parse : String → Option Value
  jsNumber : String → Value

/-- Embedding of the private method getDescriptionAnnotation of
ExtendedAnnotationsReader. -/
def getDescriptionAnnotation (r : ExtendedAnnotationsReader) (node : Node) :
    Option Annotations :=
  match symbolAtNode node with
  | none => none
  | some symbol =>
    let comments := symbol.getDocumentationComment
    if comments.isEmpty then none else
    let anyOf : List Value :=
      if symbol.getFlags = SymbolFlags.ConstEnum then
        match symbol.getDeclarations.head? with
        | none => []
        | some decl =>
          decl.children.filterMap (fun child =>
            match symbolAtNode child with
            | none => none
            | some csym =>
              let description :=
                jsTrim ( stripCarriageReturns
                  ( joinParts csym.getDocumentationComment " "))
              let val := splitLastOnEqSpace child.getText
              some (Value.obj [("const", r.jsNumber val),
                               ("description", Value.str description)]))
      else []
    let markdownDescription :=
      jsTrim ( stripCarriageReturns ( joinParts comments " "))
    let description := jsTrim ( collapseNewlines markdownDescription)
    let data : Annotations :=
      if r.markdownDescription then
        [("description", Value.str description),
         ("markdownDescription", Value.str markdownDescription)]
      else
        [("description", Value.str description)]
    if anyOf.length > 0 then
      some ( spread data
        [("anyOf", Value.arr anyOf), ("title", Value.str description)])
    else
      some data

/-- Embedding of the private method getTypeAnnotation of
ExtendedAnnotationsReader.  The method reads nothing from the instance, so
the reader argument is omitted. -/
def getTypeAnnotation (node : Node) : Option Annotations :=
  match symbolAtNode node with
  | none => none
  | some symbol =>
    if symbol.getFlags = SymbolFlags.ConstEnum then
      some [("type", Value.str "number")]
    else
    let jsDocTags := symbol.getJsDocTags
    if jsDocTags.isEmpty then none else
    match jsDocTags.find? (fun tag => tag.name == "asType") with
    | none => none
    | some jsDocTag =>
      let text := joinParts (jsDocTag.text.getD []) ""
      some [("type", Value.str text)]

/-- Embedding of the private method getExampleAnnotation of
ExtendedAnnotationsReader: the try/catch around json5.parse becomes the
optional result of the json5parse capability, an example being pushed
exactly when it parses. -/
def getExampleAnnotation (r : ExtendedAnnotationsReader) (node : Node) :
    Option Annotations :=
  match symbolAtNode node with
  | none => none
  | some symbol =>
    let jsDocTags := symbol.getJsDocTags
    if jsDocTags.isEmpty then none else
    let examples : List Value :=
      (jsDocTags.filter (fun tag => tag.name == "example")).filterMap
        (fun tag => r.json5parse ( joinParts (tag.text.getD []) ""))
    if examples.length = 0 then none
    else some [("examples", Value.arr examples)]

/-- Embedding of the public method getAnnotations of
ExtendedAnnotationsReader: the four-way object spread followed by the
emptiness check on Object.keys. -/
def getAnnotations (r : ExtendedAnnotationsReader) (node : Node) :
    Option Annotations :=
  let annos : Annotations :=
    spread ( spread ( spread (fields ( getDescriptionAnnotation r node))
      (fields ( getTypeAnnotation node)))
      (fields ( getExampleAnnotation r node)))
      (fields (r.superGetAnnotations node))
  if annos.length ≠ 0 then some annos else none

/-- Embedding of the public method isNullable of
ExtendedAnnotationsReader. -/
def isNullable (node : Node) : Bool :=
  match symbolAtNode node with
  | none => false
  | some symbol =>
    let jsDocTags := symbol.getJsDocTags
    if jsDocTags.isEmpty then false else
    (jsDocTags.find? (fun tag => tag.name == "nullable")).isSome

/-
Concrete instantiations used to evaluate the development on closed inputs.
-/

/-- Plain reader instance: no markdown mode, a base reader that contributes
nothing, a relaxed JSON parser that rejects everything, and a Number
conversion that always yields NaN. -/
def r0 : ExtendedAnnotationsReader :=
  ⟨false, fun _ => none, fun _ => none, fun _ => Value.nan⟩

/-- Node with no resolvable symbol. -/
def node0 : Node := Node.mk none "" []

/-- Instantiation of the external JavaScript Number conversion on the
decimal digit strings that occur in the concrete enum example: a nonempty
all-digit string is read as a decimal natural number, anything else
yields NaN. -/
def decNumber (s : String) : Value :=
  if s.toList ≠ [] && s.toList.all Char.isDigit then
    Value.num (Int.ofNat (s.toList.foldl (fun acc c => 10 * acc + (c.toNat - 48)) 0))
  else Value.nan

/-- Reader whose Number conversion handles decimal digit strings. -/
def r3 : ExtendedAnnotationsReader :=
  ⟨false, fun _ => none, fun _ => none, decNumber⟩

/-- First member of the concrete constant enum: documentation comment
first, source text of the member declaration. -/
def enumChildA : Node := Node.mk (some (Symbol.mk [⟨"first"⟩] [] 0 [])) "A = 1" []

/-- Second member of the concrete constant enum. -/
def enumChildB : Node := Node.mk (some (Symbol.mk [⟨"second"⟩] [] 0 [])) "B = 2" []

/-- First declaration of the enum symbol, whose visited children are the
two members. -/
def enumDecl : Node := Node.mk none "" [enumChildA, enumChildB]

/-- Symbol of the concrete constant enum declaration: its own doc comment,
no tags, the ConstEnum flag, one declaration. -/
def enumSym : Symbol :=
  Symbol.mk [⟨"enum doc"⟩] [] SymbolFlags.ConstEnum [enumDecl]

/-- The concrete constant enum declaration node. -/
def enumNode : Node := Node.mk (some enumSym) "" []

/-- Symbol with a soft-wrapped two-line documentation comment and no
tags. -/
def symC4 : Symbol := Symbol.mk [⟨"line one\nline two"⟩] [] 0 []

/-- Node carrying symC4. -/
def nodeC4 : Node := Node.mk (some symC4) "" []

/-- Reader whose relaxed JSON parser rejects exactly the text bad and
parses any other text to that text as a string value. -/
def r5 : ExtendedAnnotationsReader :=
  ⟨false, fun _ => none,
    fun s => if s = "bad" then none else some (Value.str s),
    fun _ => Value.nan⟩

/-- Symbol with three example tags, the middle of which fails to parse
under r5. -/
def sym5 : Symbol :=
  Symbol.mk [] [⟨"example", some [⟨"x"⟩]⟩, ⟨"example", some [⟨"bad"⟩]⟩,
    ⟨"example", some [⟨"y"⟩]⟩] 0 []

/-- Node carrying sym5. -/
def node5 : Node := Node.mk (some sym5) "" []

/-- Constant enum symbol that also carries an asType tag: the enum branch
must win. -/
def sym6 : Symbol :=
  Symbol.mk [] [⟨"asType", some [⟨"CustomType"⟩]⟩] SymbolFlags.ConstEnum []

/-- Node carrying sym6. -/
def node6 : Node := Node.mk (some sym6) "" []

/-- Symbol with an unrelated tag followed by a nullable tag. -/
def sym7 : Symbol := Symbol.mk [] [⟨"other", none⟩, ⟨"nullable", none⟩] 0 []

/-- Node carrying sym7. -/
def node7 : Node := Node.mk (some sym7) "" []

/-- Constant enum symbol with a documentation comment, no tags and no
declarations. -/
def sym8 : Symbol := Symbol.mk [⟨"d"⟩] [] SymbolFlags.ConstEnum []

/-- Node carrying sym8. -/
def node8 : Node := Node.mk (some sym8) "" []

/-- Ordinary symbol with a documentation comment and no tags. -/
def symC8 : Symbol := Symbol.mk [⟨"doc"⟩] [] 0 []

/-- Node carrying symC8. -/
def nodeC8 : Node := Node.mk (some symC8) "" []

/-- Ordinary symbol whose only tag is an asType tag with an absent
body. -/
def sym10 : Symbol := Symbol.mk [] [⟨"asType", none⟩] 0 []

/-- Node carrying sym10. -/
def node10 : Node := Node.mk (some sym10) "" []

/-
General lemmas about association list lookup and the spread operation.
-/

theorem alookup_append (l1 l2 : Annotations) (k : String) :
    alookup (l1 ++ l2) k = ovr ( alookup l1 k) ( alookup l2 k) := by
  induction l1 with
  | nil => simp [alookup, ovr]
  | cons kv rest ih =>
    by_cases h : kv.1 = k <;> simp [alookup, h, ih, ovr]

theorem alookup_mapOverride (a b : Annotations) (k : String) :
    alookup (a.map (fun kv => (kv.1, ( alookup b kv.1).getD kv.2))) k
      = ( alookup a k).map (fun v => ( alookup b k).getD v) := by
  induction a with
  | nil => simp [alookup]
  | cons kv rest ih =>
    by_cases h : kv.1 = k
    · simp [alookup, h]
    · simp [alookup, h, ih]

theorem alookup_filterNone (a b : Annotations) (k : String) :
    alookup (b.filter (fun kv => ( alookup a kv.1).isNone)) k
      = (if ( alookup a k).isNone then alookup b k else none) := by
  induction b with
  | nil => simp [alookup]
  | cons kv rest ih =>
    by_cases hk : kv.1 = k
    · subst hk
      cases ha : alookup a kv.1 with
      | none => simp [List.filter, alookup, ha]
      | some v => simp [List.filter, alookup, ha, ih]
    · cases ha : alookup a kv.1 with
      | none => simp [List.filter, alookup, ha, hk, ih]
      | some v => simp [List.filter, alookup, ha, hk, ih]

theorem alookup_spread (a b : Annotations) (k : String) :
    alookup ( spread a b) k = ovr ( alookup b k) ( alookup a k) := by
  unfold spread
  rw [alookup_append, alookup_mapOverride, alookup_filterNone]
  cases ha : alookup a k <;> cases hb : alookup b k <;> simp [ovr]

theorem spread_eq_nil (a b : Annotations) :
    spread a b = [] ↔ a = [] ∧ b = [] := by
  constructor
  · intro h
    unfold spread at h
    have h12 := List.append_eq_nil.mp h
    have ha : a = [] := List.map_eq_nil_iff.mp h12.1
    subst ha
    refine ⟨rfl, ?_⟩
    have h2 := h12.2
    cases b with
    | nil => rfl
    | cons kv rest => simp [List.filter, alookup] at h2
  · rintro ⟨rfl, rfl⟩
    rfl

theorem spread_nil_right (a : Annotations) : spread a [] = a := by
  unfold spread
  induction a with
  | nil => rfl
  | cons kv rest ih =>
    simp [alookup] at ih ⊢

theorem lookupAnn_merge (r : ExtendedAnnotationsReader) (node : Node) (k : String) :
    lookupAnn ( getAnnotations r node) k =
      ovr ( alookup (fields (r.superGetAnnotations node)) k)
        (ovr ( alookup (fields ( getExampleAnnotation r node)) k)
          (ovr ( alookup (fields ( getTypeAnnotation node)) k)
            ( alookup (fields ( getDescriptionAnnotation r node)) k))) := by
  unfold lookupAnn getAnnotations
  set m := spread ( spread ( spread (fields ( getDescriptionAnnotation r node))
      (fields ( getTypeAnnotation node)))
      (fields ( getExampleAnnotation r node)))
      (fields (r.superGetAnnotations node)) with hm
  by_cases h : m.length ≠ 0
  · rw [if_pos h]
    show alookup m k = _
    rw [hm, alookup_spread, alookup_spread, alookup_spread]
  · rw [if_neg h]
    have hm0 : m = [] := List.length_eq_zero.mp (not_ne_iff.mp h)
    rw [hm] at hm0
    obtain ⟨h3, hb⟩ := (spread_eq_nil _ _).mp hm0
    obtain ⟨h2, he⟩ := (spread_eq_nil _ _).mp h3
    obtain ⟨hd, ht⟩ := (spread_eq_nil _ _).mp h2
    rw [hb, he, ht, hd]
    rfl

theorem alookup_exampleAnn (r : ExtendedAnnotationsReader) (node : Node)
    (k : String) (hk : k ≠ "examples") :
    alookup (fields ( getExampleAnnotation r node)) k = none := by
  have hk2 : ¬("examples" = k) := fun hx => hk hx.symm
  unfold getExampleAnnotation
  cases hs : symbolAtNode node with
  | none => rfl
  | some symbol =>
    simp only []
    split_ifs <;> simp [fields, alookup, hk2]

/-
Claim theorems.
-/

/-- C1: for every node and every field name, getAnnotations merges the
description-derived group, the type-override group, the example group and
the base reader result in that left-to-right spread order, so a key found
in a later group overrides the same key of an earlier group and a base
reader field overrides all three core groups. -/
theorem C1_merge_order (r : ExtendedAnnotationsReader) (node : Node) (k : String) :
    lookupAnn ( getAnnotations r node) k =
      ovr ( alookup (fields (r.superGetAnnotations node)) k)
        (ovr ( alookup (fields ( getExampleAnnotation r node)) k)
          (ovr ( alookup (fields ( getTypeAnnotation node)) k)
            ( alookup (fields ( getDescriptionAnnotation r node)) k))) :=
  lookupAnn_merge r node k

/-- C2: getAnnotations returns absent exactly when none of the four
contributing groups yields any field, it never returns an empty record,
and a node with no resolvable symbol whose base reader contributes nothing
gets an absent result. -/
theorem C2_absent_iff_no_fields (r : ExtendedAnnotationsReader) (node : Node) :
    ( getAnnotations r node = none ↔
      fields ( getDescriptionAnnotation r node) = [] ∧
      fields ( getTypeAnnotation node) = [] ∧
      fields ( getExampleAnnotation r node) = [] ∧
      fields (r.superGetAnnotations node) = []) ∧
    ( getAnnotations r node ≠ some ([] : Annotations)) ∧
    (symbolAtNode node = none → r.superGetAnnotations node = none →
      getAnnotations r node = none) := by
  unfold getAnnotations
  set m := spread ( spread ( spread (fields ( getDescriptionAnnotation r node))
      (fields ( getTypeAnnotation node)))
      (fields ( getExampleAnnotation r node)))
      (fields (r.superGetAnnotations node)) with hm
  refine ⟨?_, ?_, ?_⟩
  · by_cases h : m.length ≠ 0
    · rw [if_pos h]
      constructor
      · intro hx
        exact absurd hx (Option.some_ne_none m)
      · rintro ⟨h1, h2, h3, h4⟩
        exfalso
        apply h
        rw [hm, h1, h2, h3, h4]
        rfl
    · rw [if_neg h]
      have hm0 : m = [] := List.length_eq_zero.mp (not_ne_iff.mp h)
      rw [hm] at hm0
      obtain ⟨h3, hb⟩ := (spread_eq_nil _ _).mp hm0
      obtain ⟨h2, he⟩ := (spread_eq_nil _ _).mp h3
      obtain ⟨hd, ht⟩ := (spread_eq_nil _ _).mp h2
      simp [hd, ht, he, hb]
  · by_cases h : m.length ≠ 0
    · rw [if_pos h]
      intro hx
      apply h
      rw [Option.some.inj hx]
      rfl
    · rw [if_neg h]
      exact fun hx => Option.noConfusion hx
  · intro h1 h2
    have hd : getDescriptionAnnotation r node = none := by
      unfold getDescriptionAnnotation
      rw [h1]
    have ht : getTypeAnnotation node = none := by
      unfold getTypeAnnotation
      rw [h1]
    have he : getExampleAnnotation r node = none := by
      unfold getExampleAnnotation
      rw [h1]
    rw [hm, hd, ht, he, h2]
    rfl

/-- C2 witness: on a concrete node with no resolvable symbol and a base
reader contributing nothing, getAnnotations is absent. -/
theorem C2_witness :
    symbolAtNode node0 = none ∧ r0.superGetAnnotations node0 = none ∧
    getAnnotations r0 node0 = none :=
  ⟨rfl, rfl, (C2_absent_iff_no_fields r0 node0).2.2 rfl rfl⟩

/-- C3: on the concrete constant enum with members A = 1 documented first
and B = 2 documented second, getAnnotations yields type number, anyOf with
the two member descriptors in member order whose const values come from
splitting the member source text on the equals-space separator and
converting the last segment to a number, and title equal to the enum
description. -/
theorem C3_const_enum_record :
    getAnnotations r3 enumNode =
      some [("description", Value.str "enum doc"),
            ("anyOf", Value.arr
              [Value.obj [("const", Value.num 1), ("description", Value.str "first")],
               Value.obj [("const", Value.num 2), ("description", Value.str "second")]]),
            ("title", Value.str "enum doc"),
            ("type", Value.str "number")] := rfl

/-- C4: the description field equals the comment fragments joined with
single spaces, stripped of carriage returns, trimmed, and with every
single newline whose predecessor is not a newline and whose successor is
neither a newline nor a markdown list marker collapsed into a space; the
soft-wrapped example collapses and the list-item example keeps its
newline. -/
theorem C4_description_collapse :
    (∀ (r : ExtendedAnnotationsReader) (node : Node) (symbol : Symbol),
        symbolAtNode node = some symbol →
        symbol.getDocumentationComment ≠ [] →
        lookupAnn ( getDescriptionAnnotation r node) "description" =
          some (Value.str ( jsTrim ( collapseNewlines ( jsTrim ( stripCarriageReturns
            ( joinParts symbol.getDocumentationComment " "))))))) ∧
    collapseNewlines "line one\nline two" = "line one line two" ∧
    collapseNewlines "item one\n- item two" = "item one\n- item two" := by
  refine ⟨?_, rfl, rfl⟩
  intro r node symbol h hdoc
  unfold lookupAnn getDescriptionAnnotation
  rw [h]
  simp only []
  cases hc : symbol.getDocumentationComment with
  | nil => exact absurd hc hdoc
  | cons p ps =>
    simp only [List.isEmpty, if_false, Bool.false_eq_true]
    split_ifs <;> rfl

/-- C4 witness: a concrete soft-wrapped comment produces the collapsed
description. -/
theorem C4_witness :
    symbolAtNode nodeC4 = some symC4 ∧ symC4.getDocumentationComment ≠ [] ∧
    lookupAnn ( getDescriptionAnnotation r0 nodeC4) "description" =
      some (Value.str "line one line two") :=
  ⟨rfl, by decide,
    (C4_description_collapse.1 r0 nodeC4 symC4 rfl (by decide)).trans (by rfl)⟩

/-- C5: the example group collects, in tag order, the parses of each
example tag body, drops each body the relaxed JSON parser rejects without
affecting the others, contributes no examples field when nothing parses,
and a change of the parser leaves the description group untouched. -/
theorem C5_example_collection (r : ExtendedAnnotationsReader) (node : Node)
    (symbol : Symbol) (h : symbolAtNode node = some symbol) :
    ( getExampleAnnotation r node =
      if ((symbol.getJsDocTags.filter (fun tag => tag.name == "example")).filterMap
            (fun tag => r.json5parse ( joinParts (tag.text.getD []) ""))).length = 0
      then none
      else some [("examples", Value.arr
        ((symbol.getJsDocTags.filter (fun tag => tag.name == "example")).filterMap
          (fun tag => r.json5parse ( joinParts (tag.text.getD []) ""))))]) ∧
    (∀ p2 : String → Option Value,
      getDescriptionAnnotation
          (ExtendedAnnotationsReader.mk r.markdownDescription
            r.superGetAnnotations p2 r.jsNumber) node =
        getDescriptionAnnotation r node) := by
  constructor
  · unfold getExampleAnnotation
    rw [h]
    cases ht : symbol.getJsDocTags with
    | nil => simp [ht, List.isEmpty]
    | cons tag tags =>
      simp only [ht, List.isEmpty]
      rfl
  · intro p2
    rfl

/-- C5 witness: of three concrete example tags the middle body fails to
parse and is dropped, leaving the two parsed values in tag order. -/
theorem C5_witness :
    symbolAtNode node5 = some sym5 ∧
    getExampleAnnotation r5 node5 =
      some [("examples", Value.arr [Value.str "x", Value.str "y"])] :=
  ⟨rfl, ((C5_example_collection r5 node5 sym5 rfl).1).trans (by rfl)⟩

/-- C6: a symbol whose flags equal the ConstEnum flag contributes type
number unconditionally, regardless of any asType tag; otherwise a found
asType tag contributes its body fragments joined with no separator as the
type value verbatim. -/
theorem C6_type_override (node : Node) (symbol : Symbol)
    (h : symbolAtNode node = some symbol) :
    (symbol.getFlags = SymbolFlags.ConstEnum →
      getTypeAnnotation node = some [("type", Value.str "number")]) ∧
    (symbol.getFlags ≠ SymbolFlags.ConstEnum →
      ∀ tag : JSDocTagInfo,
        symbol.getJsDocTags.find? (fun t => t.name == "asType") = some tag →
        getTypeAnnotation node =
          some [("type", Value.str ( joinParts (tag.text.getD []) ""))]) := by
  constructor
  · intro hf
    unfold getTypeAnnotation
    rw [h]
    simp only [hf, if_true]
  · intro hf tag hfind
    unfold getTypeAnnotation
    rw [h]
    simp only [if_neg hf]
    cases ht : symbol.getJsDocTags with
    | nil =>
      rw [ht] at hfind
      simp [List.find?] at hfind
    | cons a as =>
      rw [ht] at hfind
      simp only [List.isEmpty, if_false, Bool.false_eq_true, hfind]

/-- C6 witness: a concrete enum-flagged symbol that also carries an asType
tag still gets type number. -/
theorem C6_witness :
    symbolAtNode node6 = some sym6 ∧
    sym6.getFlags = SymbolFlags.ConstEnum ∧
    sym6.getJsDocTags.find? (fun t => t.name == "asType") =
      some ⟨"asType", some [⟨"CustomType"⟩]⟩ ∧
    getTypeAnnotation node6 = some [("type", Value.str "number")] :=
  ⟨rfl, rfl, rfl, (C6_type_override node6 sym6 rfl).1 rfl⟩

/-- C7: isNullable is true exactly when the node resolves to a symbol one
of whose tags is named nullable, by exact case-sensitive match, and a node
with no resolvable symbol yields false without error. -/
theorem C7_isNullable_iff (node : Node) :
    ( isNullable node = true ↔
      ∃ (symbol : Symbol) (tag : JSDocTagInfo),
        symbolAtNode node = some symbol ∧
        tag ∈ symbol.getJsDocTags ∧ tag.name = "nullable") ∧
    (symbolAtNode node = none → isNullable node = false) := by
  constructor
  · constructor
    · intro htrue
      unfold isNullable at htrue
      cases hs : symbolAtNode node with
      | none => rw [hs] at htrue; simp at htrue
      | some s =>
        rw [hs] at htrue
        simp only [] at htrue
        cases ht : s.getJsDocTags with
        | nil => rw [ht] at htrue; simp [List.isEmpty] at htrue
        | cons a as =>
          rw [ht] at htrue
          simp only [List.isEmpty, if_false, Bool.false_eq_true] at htrue
          obtain ⟨tag, hmem, hp⟩ := List.find?_isSome.mp htrue
          exact ⟨s, tag, rfl, by rw [ht]; exact hmem, beq_iff_eq.mp hp⟩
    · rintro ⟨symbol, tag, hs, hmem, hname⟩
      unfold isNullable
      rw [hs]
      simp only []
      cases ht : symbol.getJsDocTags with
      | nil => rw [ht] at hmem; cases hmem
      | cons a as =>
        rw [ht] at hmem
        simp only [List.isEmpty, if_false, Bool.false_eq_true]
        exact List.find?_isSome.mpr ⟨tag, hmem, beq_iff_eq.mpr hname⟩
  · intro h
    unfold isNullable
    rw [h]

/-- C7 witness: a concrete symbol carrying a nullable tag after an
unrelated tag is nullable. -/
theorem C7_witness : isNullable node7 = true :=
  (C7_isNullable_iff node7).1.mpr
    ⟨sym7, ⟨"nullable", none⟩, rfl, by decide, rfl⟩

/-- C8 counterexample: a constant enum symbol with a documentation comment,
no tags and a silent base reader satisfies every hypothesis of the claim,
yet getAnnotations carries a type field, so the record does not contain
exactly the description field. -/
theorem C8_counterexample :
    symbolAtNode node8 = some sym8 ∧ sym8.getDocumentationComment ≠ [] ∧
    sym8.getJsDocTags = [] ∧ r0.superGetAnnotations node8 = none ∧
    lookupAnn ( getAnnotations r0 node8) "type" = some (Value.str "number") :=
  ⟨rfl, by decide, rfl, rfl, rfl⟩

/-- C8 (amended): for every node whose symbol has a documentation comment,
no structured tags and flags different from the ConstEnum flag, with the
base reader contributing nothing, getAnnotations returns a record whose
keys are exactly description, together with markdownDescription exactly
when the markdown mode is configured. -/
theorem C8_description_only (r : ExtendedAnnotationsReader) (node : Node)
    (symbol : Symbol) (h : symbolAtNode node = some symbol)
    (hdoc : symbol.getDocumentationComment ≠ [])
    (htags : symbol.getJsDocTags = [])
    (hflags : symbol.getFlags ≠ SymbolFlags.ConstEnum)
    (hbase : r.superGetAnnotations node = none) :
    (fields ( getAnnotations r node)).map Prod.fst =
      if r.markdownDescription then ["description", "markdownDescription"]
      else ["description"] := by
  have hty : getTypeAnnotation node = none := by
    unfold getTypeAnnotation
    rw [h]
    simp [hflags, htags, List.isEmpty]
  have hex : getExampleAnnotation r node = none := by
    unfold getExampleAnnotation
    rw [h]
    simp [htags, List.isEmpty]
  have hdesc : ∃ dval mval : Value,
      getDescriptionAnnotation r node =
        some (if r.markdownDescription then
                [("description", dval), ("markdownDescription", mval)]
              else [("description", dval)]) := by
    unfold getDescriptionAnnotation
    rw [h]
    simp only []
    cases hc : symbol.getDocumentationComment with
    | nil => exact absurd hc hdoc
    | cons p ps =>
      refine ⟨Value.str ( jsTrim ( collapseNewlines ( jsTrim ( stripCarriageReturns
          ( joinParts (p :: ps) " "))))),
        Value.str ( jsTrim ( stripCarriageReturns ( joinParts (p :: ps) " "))), ?_⟩
      simp only [List.isEmpty, Bool.false_eq_true, if_false, hflags, if_neg]
      cases hm : r.markdownDescription <;> simp [hm]
  obtain ⟨dval, mval, hdesc⟩ := hdesc
  unfold getAnnotations
  rw [hty, hex, hdesc, hbase]
  cases hm : r.markdownDescription <;>
    simp [fields, spread_nil_right, hm]

/-- C8 witness: a concrete ordinary symbol with a doc comment and no tags
yields a record with exactly the description key. -/
theorem C8_witness :
    symbolAtNode nodeC8 = some symC8 ∧ symC8.getDocumentationComment ≠ [] ∧
    symC8.getJsDocTags = [] ∧ symC8.getFlags ≠ SymbolFlags.ConstEnum ∧
    r0.superGetAnnotations nodeC8 = none ∧
    (fields ( getAnnotations r0 nodeC8)).map Prod.fst = ["description"] :=
  ⟨rfl, by decide, rfl, by decide, rfl,
    (C8_description_only r0 nodeC8 symC8 rfl (by decide) rfl (by decide) rfl).trans
      (by rfl)⟩

/-- C9: the embedded core is total: every call of getAnnotations completes
with either an absent result or a nonempty record, and every call of
isNullable completes with a boolean; the only internal failure, a
malformed example literal, is the local none of the parsing capability
already handled inside the example group. -/
theorem C9_no_fault (r : ExtendedAnnotationsReader) (node : Node) :
    ( getAnnotations r node = none ∨
      ∃ a : Annotations, getAnnotations r node = some a ∧ 0 < a.length) ∧
    ( isNullable node = false ∨ isNullable node = true) := by
  constructor
  · unfold getAnnotations
    set m := spread ( spread ( spread (fields ( getDescriptionAnnotation r node))
        (fields ( getTypeAnnotation node)))
        (fields ( getExampleAnnotation r node)))
        (fields (r.superGetAnnotations node)) with hm
    by_cases hl : m.length ≠ 0
    · right
      exact ⟨m, if_pos hl, Nat.pos_of_ne_zero hl⟩
    · left
      exact if_neg hl
  · cases hb : isNullable node
    · exact Or.inl rfl
    · exact Or.inr rfl

/-- C10: a non-enum symbol with an asType tag whose body is absent or empty
contributes a type field equal to the empty string rather than omitting
the field, both in the type group and, when the base reader does not
provide a type field of its own, in the merged getAnnotations record. -/
theorem C10_asType_empty_body (r : ExtendedAnnotationsReader) (node : Node)
    (symbol : Symbol) (tag : JSDocTagInfo)
    (h : symbolAtNode node = some symbol)
    (hflags : symbol.getFlags ≠ SymbolFlags.ConstEnum)
    (hfind : symbol.getJsDocTags.find? (fun t => t.name == "asType") = some tag)
    (hbody : tag.text = none ∨ tag.text = some [])
    (hbase : alookup (fields (r.superGetAnnotations node)) "type" = none) :
    getTypeAnnotation node = some [("type", Value.str "")] ∧
    lookupAnn ( getAnnotations r node) "type" = some (Value.str "") := by
  have hjoin : joinParts (tag.text.getD []) "" = "" := by
    rcases hbody with hb | hb <;> rw [hb] <;> rfl
  have hty : getTypeAnnotation node = some [("type", Value.str "")] := by
    unfold getTypeAnnotation
    rw [h]
    simp only [if_neg hflags]
    cases ht : symbol.getJsDocTags with
    | nil =>
      rw [ht] at hfind
      simp [List.find?] at hfind
    | cons a as =>
      rw [ht] at hfind
      simp only [List.isEmpty, if_false, Bool.false_eq_true, hfind, hjoin]
  refine ⟨hty, ?_⟩
  rw [lookupAnn_merge, hbase, alookup_exampleAnn r node "type" (by decide), hty]
  rfl

/-- C10 witness: a concrete symbol whose only tag is an asType tag with an
absent body yields an empty-string type field in the merged record. -/
theorem C10_witness :
    symbolAtNode node10 = some sym10 ∧
    sym10.getFlags ≠ SymbolFlags.ConstEnum ∧
    sym10.getJsDocTags.find? (fun t => t.name == "asType") = some ⟨"asType", none⟩ ∧
    lookupAnn ( getAnnotations r0 node10) "type" = some (Value.str "") :=
  ⟨rfl, by decide, rfl,
    (C10_asType_empty_body r0 node10 sym10 ⟨"asType", none⟩ rfl (by decide) rfl
      (Or.inl rfl) rfl).2⟩

end TJS
